import Mathlib

/-!
# servok/api/v1: generated message validation, and the watch engine of the specification

Part 1 embeds `pkg/proto/servok/api/v1/v1.pb.validate.go`:
the three `Validate` methods, the three `...ValidationError` types with their
accessors, `ErrorName` and `Error`, together with the small part of Go's
`fmt.Sprintf` those methods rely on.

Part 2 models the endpoint-watch distribution engine that the specification
describes (Diff Engine, Target Registry, Subscriber Session).
-/

set_option autoImplicit false

/-! ## Go's `fmt.Sprintf`, as far as this package uses it -/

namespace fmt

/-- An operand handed to `Sprintf`. The package formats Go strings, the `int`
index of a `range` loop, and non-nil `error` values (which `fmt` prints through
their `Error()` method). -/
inductive Operand where
  | str (s : String)
  | int (n : Int)
  | err (message : String)
  deriving DecidableEq, Repr

/-- Default rendering of an operand, shared by the verbs `%s` and `%v` for the
operand kinds above: a string prints as itself, an integer in decimal, an error
as the text of `Error()`. -/
def Operand.render : Operand → String
  | .str s => s
  | .int n => toString n
  | .err message => message

/-- Scan of the format string. A `%` followed by `s` or `v` consumes the next
operand; with no operand left Go prints the `MISSING` marker. Every other
character is copied. The formats of this package use no other verb. -/
def SprintfAux : List Char → List Operand → String
  | [], _ => ""
  | c :: rest, args =>
    if c = '%' then
      match rest with
      | [] => "%!(NOVERB)"
      | v :: rest2 =>
        if v = 's' ∨ v = 'v' then
          match args with
          | a :: args2 => a.render ++ SprintfAux rest2 args2
          | [] => "%!" ++ String.singleton v ++ "(MISSING)" ++ SprintfAux rest2 []
        else
          String.singleton c ++ SprintfAux (v :: rest2) args
    else
      String.singleton c ++ SprintfAux rest args

/-- Model of `fmt.Sprintf(format, args...)`. -/
def Sprintf (format : String) (args : List Operand) : String :=
  SprintfAux format.toList args

end fmt

/-! ## Messages -/

/-- Modelled from the spec: the message struct `WatchRequest` is declared in the
generated `v1.pb.go`, which is not among the sources; the specification gives it
as `WatchRequest{target: string}`. -/
structure WatchRequest where
  Target : String
  deriving DecidableEq, Repr

/-- Modelled from the spec: the message struct `Endpoint` is declared in the
generated `v1.pb.go`, which is not among the sources; the specification gives it
as `Endpoint{hostname: string, port: uint32, weight: uint32}`. The two `uint32`
fields are kept as naturals: validation performs no arithmetic on them, and a
statement over every natural covers every `uint32`. -/
structure Endpoint where
  Hostname : String
  Port : Nat
  Weight : Nat
  deriving DecidableEq, Repr

/-- Modelled from the spec: the message struct `WatchResponse` is declared in the
generated `v1.pb.go`, which is not among the sources; the specification gives it
as `WatchResponse{endpoints: list of Endpoint}`. In Go the field is
`[]*Endpoint`, so an entry may be the nil pointer (`none`). -/
structure WatchResponse where
  Endpoints : List (Option Endpoint)
  deriving DecidableEq, Repr

/-- Go's `error` interface, seen through the only method the package calls on a
cause: `Error()`. -/
class GoError (ε : Type) where
  Error : ε → String

instance : GoError String where
  Error := id

/-! ## `WatchRequestValidationError` -/

/-- The struct `WatchRequestValidationError`; a nil `cause` is `none`. -/
structure WatchRequestValidationError (ε : Type) where
  field : String
  reason : String
  cause : Option ε
  key : Bool
  deriving DecidableEq, Repr

namespace WatchRequestValidationError
variable {ε : Type}

/-- Field function returns field value. -/
def Field (e : WatchRequestValidationError ε) : String := e.field

/-- Reason function returns reason value. -/
def Reason (e : WatchRequestValidationError ε) : String := e.reason

/-- Cause function returns cause value. -/
def Cause (e : WatchRequestValidationError ε) : Option ε := e.cause

/-- Key function returns key value. -/
def Key (e : WatchRequestValidationError ε) : Bool := e.key

/-- ErrorName returns error name. -/
def ErrorName (_e : WatchRequestValidationError ε) : String := "WatchRequestValidationError"

/-- Error satisfies the builtin error interface. -/
def Error [GoError ε] (e : WatchRequestValidationError ε) : String :=
  let cause :=
    match e.cause with
    | some c => fmt.Sprintf " | caused by: %v" [.err (GoError.Error c)]
    | none => ""
  let key := if e.key then "key for " else ""
  fmt.Sprintf "invalid %sWatchRequest.%s: %s%s" [.str key, .str e.field, .str e.reason, .str cause]

instance [GoError ε] : GoError (WatchRequestValidationError ε) where
  Error := Error

end WatchRequestValidationError

/-! ## `WatchResponseValidationError` -/

/-- The struct `WatchResponseValidationError`; a nil `cause` is `none`. -/
structure WatchResponseValidationError (ε : Type) where
  field : String
  reason : String
  cause : Option ε
  key : Bool
  deriving DecidableEq, Repr

namespace WatchResponseValidationError
variable {ε : Type}

/-- Field function returns field value. -/
def Field (e : WatchResponseValidationError ε) : String := e.field

/-- Reason function returns reason value. -/
def Reason (e : WatchResponseValidationError ε) : String := e.reason

/-- Cause function returns cause value. -/
def Cause (e : WatchResponseValidationError ε) : Option ε := e.cause

/-- Key function returns key value. -/
def Key (e : WatchResponseValidationError ε) : Bool := e.key

/-- ErrorName returns error name. -/
def ErrorName (_e : WatchResponseValidationError ε) : String := "WatchResponseValidationError"

/-- Error satisfies the builtin error interface. -/
def Error [GoError ε] (e : WatchResponseValidationError ε) : String :=
  let cause :=
    match e.cause with
    | some c => fmt.Sprintf " | caused by: %v" [.err (GoError.Error c)]
    | none => ""
  let key := if e.key then "key for " else ""
  fmt.Sprintf "invalid %sWatchResponse.%s: %s%s" [.str key, .str e.field, .str e.reason, .str cause]

instance [GoError ε] : GoError (WatchResponseValidationError ε) where
  Error := Error

end WatchResponseValidationError

/-! ## `EndpointValidationError` -/

/-- The struct `EndpointValidationError`; a nil `cause` is `none`. -/
structure EndpointValidationError (ε : Type) where
  field : String
  reason : String
  cause : Option ε
  key : Bool
  deriving DecidableEq, Repr

namespace EndpointValidationError
variable {ε : Type}

/-- Field function returns field value. -/
def Field (e : EndpointValidationError ε) : String := e.field

/-- Reason function returns reason value. -/
def Reason (e : EndpointValidationError ε) : String := e.reason

/-- Cause function returns cause value. -/
def Cause (e : EndpointValidationError ε) : Option ε := e.cause

/-- Key function returns key value. -/
def Key (e : EndpointValidationError ε) : Bool := e.key

/-- ErrorName returns error name. -/
def ErrorName (_e : EndpointValidationError ε) : String := "EndpointValidationError"

/-- Error satisfies the builtin error interface. -/
def Error [GoError ε] (e : EndpointValidationError ε) : String :=
  let cause :=
    match e.cause with
    | some c => fmt.Sprintf " | caused by: %v" [.err (GoError.Error c)]
    | none => ""
  let key := if e.key then "key for " else ""
  fmt.Sprintf "invalid %sEndpoint.%s: %s%s" [.str key, .str e.field, .str e.reason, .str cause]

instance [GoError ε] : GoError (EndpointValidationError ε) where
  Error := Error

end EndpointValidationError

/-! ## The `Validate` methods -/

/-- `(*WatchRequest).Validate`: the nil receiver returns nil, and so does every
other receiver (the message has no rules). The result is Go's `error`; `none`
is nil. -/
def WatchRequest.Validate {ε : Type} (m : Option WatchRequest) :
    Option (WatchRequestValidationError ε) :=
  match m with
  | none => none
  | some _ => none

/-- `(*Endpoint).Validate`: the nil receiver returns nil; there are no
validation rules for Hostname, Port or Weight, so every receiver returns nil. -/
def Endpoint.Validate {ε : Type} (m : Option Endpoint) :
    Option (EndpointValidationError ε) :=
  match m with
  | none => none
  | some _ => none

/-- The `for idx, item := range m.GetEndpoints()` loop of
`(*WatchResponse).Validate`, with `idx` the index of the head of the remaining
slice. `validate` is the `Validate() error` method found on the item by the
type assertion (which always succeeds: `*Endpoint` declares the method). The
first non-nil error is wrapped and returned; `key` is left at its zero value. -/
def WatchResponse.validateLoop {ε : Type} (validate : Option Endpoint → Option ε) :
    Nat → List (Option Endpoint) → Option (WatchResponseValidationError ε)
  | _, [] => none
  | idx, item :: rest =>
    match validate item with
    | some err =>
      some
        { field := fmt.Sprintf "Endpoints[%v]" [.int (Int.ofNat idx)]
          reason := "embedded message failed validation"
          cause := some err
          key := false }
    | none => WatchResponse.validateLoop validate (idx + 1) rest

/-- `(*WatchResponse).Validate` over an arbitrary per-element validator. -/
def WatchResponse.ValidateWith {ε : Type} (validate : Option Endpoint → Option ε)
    (m : Option WatchResponse) : Option (WatchResponseValidationError ε) :=
  match m with
  | none => none
  | some r => WatchResponse.validateLoop validate 0 r.Endpoints

/-- `(*WatchResponse).Validate` as generated: each item is checked with
`(*Endpoint).Validate`. -/
def WatchResponse.Validate {ε : Type} (m : Option WatchResponse) :
    Option (WatchResponseValidationError (EndpointValidationError ε)) :=
  WatchResponse.ValidateWith (@Endpoint.Validate ε) m

/-- A per-element validator that rejects the nil entry and accepts every other. -/
def rejectNil (item : Option Endpoint) : Option String :=
  match item with
  | none => some "nil entry"
  | some _ => none

/-! ## Part 2: the endpoint-watch distribution engine of the specification -/

namespace WatchEngine

/-- Modelled from the spec: the engine's `Endpoint` value type (section 3),
`{hostname: string, port: uint16, weight: uint32}`, with structural equality on
all three fields. No engine code is among the sources. The numeric fields are
kept as naturals; the engine only compares them. -/
structure Endpoint where
  hostname : String
  port : Nat
  weight : Nat
  deriving DecidableEq, Repr

/-- Modelled from the spec: the `Endpoint Set` snapshot (section 3),
`{target, members: set of Endpoint, version: monotonic uint64, observedAt}`.
The specification declares `version` monotonic, so the counter is a natural
number that is only ever incremented (the 64-bit width would take 2^64
publications to exhaust). -/
structure EndpointSet where
  target : String
  members : Finset Endpoint
  version : Nat
  observedAt : Nat
  deriving DecidableEq

/-- Modelled from the spec: members present in the candidate and absent from the
previous set (section 4.3, "added"). A weight change shows up here and in
`removed`, since equality is structural. -/
def added (previous candidate : Finset Endpoint) : Finset Endpoint :=
  candidate \ previous

/-- Modelled from the spec: members of the previous set absent from the
candidate (section 4.3, "removed"). -/
def removed (previous candidate : Finset Endpoint) : Finset Endpoint :=
  previous \ candidate

/-- Modelled from the spec: the Diff Engine's
`diff(previous Endpoint Set, candidate members) -> (newSet | none)` of section
4.3. It computes the set difference and publishes a new Endpoint Set, with the
version incremented and the new member list, when something was added or
removed; otherwise it returns none. `now` is the clock reading stored in
`observedAt`. -/
def diff (previous : EndpointSet) (candidate : Finset Endpoint) (now : Nat) :
    Option EndpointSet :=
  if added previous.members candidate = ∅ ∧ removed previous.members candidate = ∅ then
    none
  else
    some
      { target := previous.target
        members := candidate
        version := previous.version + 1
        observedAt := now }

/-- Modelled from the spec: the Poll/Refresh Loop feeding successive candidate
member sets (each with its clock reading) to the Diff Engine (sections 4.2 and
4.3). The result lists the Endpoint Sets published, oldest first; a poll for
which `diff` returns none takes no action. -/
def publications (previous : EndpointSet) : List (Finset Endpoint × Nat) → List EndpointSet
  | [] => []
  | poll :: rest =>
    match diff previous poll.1 poll.2 with
    | none => publications previous rest
    | some s => s :: publications s rest

/-- Modelled from the spec: the `ResolveError` kinds of section 4.1. -/
inductive ResolveError where
  | NotFound
  | Transient
  | Invalid
  deriving DecidableEq, Repr

/-- Modelled from the spec: the terminal errors a stream can end with
(section 7). -/
inductive SessionError where
  | Transient
  | Invalid
  | SubscriberOverrun
  deriving DecidableEq, Repr

/-- Modelled from the spec: the per-target state machine of section 4.4. -/
inductive Phase where
  | Uninitialized
  | Active
  | Draining
  | Removed
  deriving DecidableEq, Repr

/-- Modelled from the spec: the `Subscriber Session` of section 3,
`{id, target, lastSentVersion, outputChannel: bounded queue of Endpoint Set}`.
The queue is kept oldest first. -/
structure SubscriberSession where
  id : Nat
  target : String
  lastSentVersion : Nat
  outputChannel : List EndpointSet
  deriving DecidableEq

/-- Modelled from the spec: the `Target Registration` of section 3 (the resolver
handle is the environment that supplies `resolved` events). -/
structure TargetRegistration where
  target : String
  current : EndpointSet
  subscribers : List SubscriberSession
  refCount : Nat
  deriving DecidableEq

/-- Modelled from the spec: the two backpressure policies section 5 allows for a
full output queue. -/
inductive Backpressure where
  | coalesce
  | disconnect
  deriving DecidableEq, Repr

/-- Modelled from the spec: the configurable parts of section 5, the depth of
each session's output queue and the policy for a full queue. -/
structure Config where
  queueDepth : Nat
  policy : Backpressure
  deriving DecidableEq, Repr

/-- What a Watch stream emits: a snapshot, or the terminal error that ends it. -/
inductive StreamItem where
  | snapshot (s : EndpointSet)
  | failed (e : SessionError)
  deriving DecidableEq

/-- Modelled from the spec: the Target Registry, restricted to one target
(section 5: targets are independent and never share a lock). `failed` records
the permanent failure of section 4.2, `nextSessionId` the source of the opaque
session ids, and `streams` the items every Watch stream has emitted so far,
oldest first, tagged with the session id. -/
structure Registry where
  phase : Phase
  failed : Bool
  registration : TargetRegistration
  nextSessionId : Nat
  streams : List (Nat × StreamItem)
  deriving DecidableEq

/-- Modelled from the spec: what the environment can do to one target. -/
inductive Event where
  | attach (now : Nat)
  | detach (id : Nat)
  | resolved (outcome : Except ResolveError (Finset Endpoint)) (now : Nat)
  | backoffExhausted
  | receive (id : Nat)
  | graceExpired

/-- The registry before any activity on `target`. -/
def Registry.init (target : String) : Registry :=
  { phase := .Uninitialized
    failed := false
    registration :=
      { target := target
        current := { target := target, members := ∅, version := 0, observedAt := 0 }
        subscribers := []
        refCount := 0 }
    nextSessionId := 0
    streams := [] }

/-- Modelled from the spec: `Active → Draining` when `refCount` reaches zero
(section 4.4). -/
def Registry.settle (r : Registry) : Registry :=
  if r.registration.refCount = 0 then { r with phase := .Draining } else r

/-- Modelled from the spec: a fresh session whose first produced value is the
current Endpoint Set (section 4.5, send-current-on-attach). -/
def SubscriberSession.fresh (id : Nat) (current : EndpointSet) : SubscriberSession :=
  { id := id
    target := current.target
    lastSentVersion := 0
    outputChannel := [current] }

/-- Modelled from the spec: `attach(target)` (sections 4.4 and 4.5). On a
permanently failed target the stream fails at once and no registration is
created. From `Uninitialized` or `Removed` a registration is created with the
empty set awaiting first resolution; from `Active` or `Draining` the existing
state is reused. The new session has id `nextSessionId`. -/
def Registry.attach (now : Nat) (r : Registry) : Registry :=
  let id := r.nextSessionId
  if r.failed then
    { r with
      nextSessionId := id + 1
      streams := r.streams ++ [(id, StreamItem.failed SessionError.Invalid)] }
  else
    match r.phase with
    | .Uninitialized | .Removed =>
      let current : EndpointSet :=
        { target := r.registration.target, members := ∅, version := 0, observedAt := now }
      { r with
        phase := .Active
        nextSessionId := id + 1
        registration :=
          { target := r.registration.target
            current := current
            subscribers := [SubscriberSession.fresh id current]
            refCount := 1 } }
    | .Active | .Draining =>
      { r with
        phase := .Active
        nextSessionId := id + 1
        registration :=
          { r.registration with
            subscribers :=
              r.registration.subscribers ++ [SubscriberSession.fresh id r.registration.current]
            refCount := r.registration.refCount + 1 } }

/-- Modelled from the spec: `detach()` of section 4.5 with the cancellation rule
of section 5. A session still registered is removed and `refCount` decremented
(reaching zero starts draining); a session that is no longer registered, because
it was detached before or its stream has ended, leaves the registry as it is.
The function is total: there is no failing outcome. -/
def Registry.detach (id : Nat) (r : Registry) : Registry :=
  if r.registration.subscribers.any (fun sess => sess.id = id) then
    Registry.settle
      { r with
        registration :=
          { r.registration with
            subscribers := r.registration.subscribers.filter (fun sess => sess.id ≠ id)
            refCount := r.registration.refCount - 1 } }
  else
    r

/-- Modelled from the spec: the registry pushing one Endpoint Set to one
session's bounded queue (section 5). With room the set is enqueued; on a full
queue the coalescing policy drops the oldest pending set and enqueues the
latest, and the other policy disconnects the subscriber (`none`). -/
def SubscriberSession.offer (cfg : Config) (s : EndpointSet) (sess : SubscriberSession) :
    Option SubscriberSession :=
  if sess.outputChannel.length < cfg.queueDepth then
    some { sess with outputChannel := sess.outputChannel ++ [s] }
  else
    match cfg.policy with
    | .coalesce => some { sess with outputChannel := sess.outputChannel.drop 1 ++ [s] }
    | .disconnect => none

/-- Modelled from the spec: `Active → Active` on an accepted Diff Engine output
(section 4.4): `current` becomes the new set, and the set is fanned out to every
subscriber; overrun subscribers are disconnected with `SubscriberOverrun`. -/
def Registry.publish (cfg : Config) (s : EndpointSet) (r : Registry) : Registry :=
  let overrun :=
    r.registration.subscribers.filter (fun sess => (SubscriberSession.offer cfg s sess).isNone)
  Registry.settle
    { r with
      registration :=
        { r.registration with
          current := s
          subscribers := r.registration.subscribers.filterMap (SubscriberSession.offer cfg s)
          refCount := r.registration.refCount - overrun.length }
      streams :=
        r.streams ++ overrun.map (fun sess => (sess.id, StreamItem.failed SessionError.SubscriberOverrun)) }

/-- Modelled from the spec: every session of the target ends with the terminal
error `e`. -/
def Registry.terminateAll (e : SessionError) (r : Registry) : Registry :=
  { r with
    phase := .Draining
    registration := { r.registration with subscribers := [], refCount := 0 }
    streams := r.streams ++ r.registration.subscribers.map (fun sess => (sess.id, StreamItem.failed e)) }

/-- Modelled from the spec: the Poll/Refresh Loop handing one resolver outcome
to the registry (section 4.2). The loop runs only while the target is active.
Members go through the Diff Engine; `NotFound` is the empty member set;
`Transient` is retried later and changes nothing; `Invalid` marks the target
permanently failed and terminates all its sessions. -/
def Registry.resolved (cfg : Config) (outcome : Except ResolveError (Finset Endpoint))
    (now : Nat) (r : Registry) : Registry :=
  if r.phase ≠ .Active then r
  else
    match outcome with
    | .ok members =>
      match diff r.registration.current members now with
      | none => r
      | some s => Registry.publish cfg s r
    | .error .NotFound =>
      match diff r.registration.current ∅ now with
      | none => r
      | some s => Registry.publish cfg s r
    | .error .Transient => r
    | .error .Invalid => Registry.terminateAll SessionError.Invalid { r with failed := true }

/-- Modelled from the spec: the session's stream taking the next Endpoint Set
from its output queue (section 4.5); with an empty queue, or for a session that
is not registered, nothing happens. -/
def Registry.receive (id : Nat) (r : Registry) : Registry :=
  match r.registration.subscribers.find? (fun sess => sess.id = id) with
  | none => r
  | some sess =>
    match sess.outputChannel with
    | [] => r
    | s :: rest =>
      { r with
        registration :=
          { r.registration with
            subscribers :=
              r.registration.subscribers.map (fun x =>
                if x.id = id then { x with lastSentVersion := s.version, outputChannel := rest }
                else x) }
        streams := r.streams ++ [(id, StreamItem.snapshot s)] }

/-- Modelled from the spec: one step of the target's state machine. -/
def Registry.step (cfg : Config) (r : Registry) : Event → Registry
  | .attach now => Registry.attach now r
  | .detach id => Registry.detach id r
  | .resolved outcome now => Registry.resolved cfg outcome now r
  | .backoffExhausted =>
    if r.phase = .Active then Registry.terminateAll SessionError.Transient r else r
  | .receive id => Registry.receive id r
  | .graceExpired =>
    if r.phase = .Draining then
      { r with
        phase := .Removed
        registration := (Registry.init r.registration.target).registration }
    else r

/-- The registry after a sequence of events. -/
def Registry.run (cfg : Config) (r : Registry) (events : List Event) : Registry :=
  events.foldl (Registry.step cfg) r

/-- The `version` values among the stream items tagged with session `id`, in
order. -/
def versionsOf (streams : List (Nat × StreamItem)) (id : Nat) : List Nat :=
  streams.filterMap (fun item =>
    if item.1 = id then
      match item.2 with
      | .snapshot s => some s.version
      | .failed _ => none
    else none)

/-- The `version` values the stream of session `id` has delivered, in order. -/
def Registry.deliveredVersions (r : Registry) (id : Nat) : List Nat :=
  versionsOf r.streams id

/-- What a session has seen and will see next: the versions already delivered
on its stream followed by the versions waiting in its output queue. -/
def Registry.timeline (r : Registry) (sess : SubscriberSession) : List Nat :=
  r.deliveredVersions sess.id ++ sess.outputChannel.map (fun s => s.version)

/-- The invariant behind ordered delivery: registered sessions and stream items
only carry ids already handed out, and the timeline of every registered session
is strictly increasing and bounded by the version of the current Endpoint Set. -/
structure Registry.Inv (r : Registry) : Prop where
  fresh : ∀ sess ∈ r.registration.subscribers, sess.id < r.nextSessionId
  logged : ∀ item ∈ r.streams, item.1 < r.nextSessionId
  sorted : ∀ id : Nat, (r.deliveredVersions id).Pairwise (· < ·)
  ordered : ∀ sess ∈ r.registration.subscribers, (r.timeline sess).Pairwise (· < ·)
  bounded : ∀ sess ∈ r.registration.subscribers, ∀ v ∈ r.timeline sess,
    v ≤ r.registration.current.version

/-- The scenario of section 8 of the specification, seen by one subscriber that
reads after every poll: two members, the same two members, a weight change,
then `NotFound`. -/
def scenario : List Event :=
  [ .attach 0, .receive 0,
    .resolved (.ok {⟨"a", 80, 1⟩, ⟨"b", 80, 1⟩}) 1, .receive 0,
    .resolved (.ok {⟨"a", 80, 1⟩, ⟨"b", 80, 1⟩}) 2, .receive 0,
    .resolved (.ok {⟨"a", 80, 2⟩, ⟨"b", 80, 1⟩}) 3, .receive 0,
    .resolved (.error .NotFound) 4, .receive 0 ]

end WatchEngine

/-! ## Facts about `fmt.Sprintf` on the formats of this package -/

theorem fmt.Sprintf_caused_by (message : String) :
    fmt.Sprintf " | caused by: %v" [.err message] = " | caused by: " ++ message := by
  apply String.ext
  simp [fmt.Sprintf, fmt.SprintfAux, fmt.Operand.render, String.toList]

theorem fmt.Sprintf_index (i : Nat) :
    fmt.Sprintf "Endpoints[%v]" [.int (Int.ofNat i)] = "Endpoints[" ++ toString i ++ "]" := by
  apply String.ext
  simp [fmt.Sprintf, fmt.SprintfAux, fmt.Operand.render, String.toList]
  rfl

theorem fmt.Sprintf_request (key field reason cause : String) :
    fmt.Sprintf "invalid %sWatchRequest.%s: %s%s" [.str key, .str field, .str reason, .str cause]
      = "invalid " ++ key ++ "WatchRequest." ++ field ++ ": " ++ reason ++ cause := by
  apply String.ext
  simp [fmt.Sprintf, fmt.SprintfAux, fmt.Operand.render, String.toList]

theorem fmt.Sprintf_response (key field reason cause : String) :
    fmt.Sprintf "invalid %sWatchResponse.%s: %s%s" [.str key, .str field, .str reason, .str cause]
      = "invalid " ++ key ++ "WatchResponse." ++ field ++ ": " ++ reason ++ cause := by
  apply String.ext
  simp [fmt.Sprintf, fmt.SprintfAux, fmt.Operand.render, String.toList]

theorem fmt.Sprintf_endpoint (key field reason cause : String) :
    fmt.Sprintf "invalid %sEndpoint.%s: %s%s" [.str key, .str field, .str reason, .str cause]
      = "invalid " ++ key ++ "Endpoint." ++ field ++ ": " ++ reason ++ cause := by
  apply String.ext
  simp [fmt.Sprintf, fmt.SprintfAux, fmt.Operand.render, String.toList]

/-! ## The loop of `WatchResponse.Validate` -/

section ValidateLoop
variable {ε : Type}

/-- The error the loop builds for a failing item at index `i` with error `c`. -/
theorem WatchResponse.validateLoop_cons_some (validate : Option Endpoint → Option ε)
    (idx : Nat) (item : Option Endpoint) (rest : List (Option Endpoint)) (c : ε)
    (h : validate item = some c) :
    WatchResponse.validateLoop validate idx (item :: rest) =
      some
        { field := "Endpoints[" ++ toString idx ++ "]"
          reason := "embedded message failed validation"
          cause := some c
          key := false } := by
  simp only [WatchResponse.validateLoop, h, fmt.Sprintf_index]

theorem WatchResponse.validateLoop_cons_none (validate : Option Endpoint → Option ε)
    (idx : Nat) (item : Option Endpoint) (rest : List (Option Endpoint))
    (h : validate item = none) :
    WatchResponse.validateLoop validate idx (item :: rest) =
      WatchResponse.validateLoop validate (idx + 1) rest := by
  simp [WatchResponse.validateLoop, h]

/-- The loop returns nil exactly when every item validates. -/
theorem WatchResponse.validateLoop_eq_none_iff (validate : Option Endpoint → Option ε)
    (idx : Nat) (items : List (Option Endpoint)) :
    WatchResponse.validateLoop validate idx items = none ↔
      ∀ item ∈ items, validate item = none := by
  induction items generalizing idx with
  | nil => simp [WatchResponse.validateLoop]
  | cons item rest ih =>
    cases h : validate item with
    | none =>
      rw [WatchResponse.validateLoop_cons_none validate idx item rest h, ih]
      simp [h]
    | some c =>
      rw [WatchResponse.validateLoop_cons_some validate idx item rest c h]
      simp [h]

/-- Items that validate are skipped; the first failing item decides the result,
whatever follows it. -/
theorem WatchResponse.validateLoop_append (validate : Option Endpoint → Option ε)
    (idx : Nat) (pre post : List (Option Endpoint)) (x : Option Endpoint) (c : ε)
    (hpre : ∀ item ∈ pre, validate item = none) (hx : validate x = some c) :
    WatchResponse.validateLoop validate idx (pre ++ x :: post) =
      some
        { field := "Endpoints[" ++ toString (idx + pre.length) ++ "]"
          reason := "embedded message failed validation"
          cause := some c
          key := false } := by
  induction pre generalizing idx with
  | nil => simpa using WatchResponse.validateLoop_cons_some validate idx x post c hx
  | cons item rest ih =>
    have h1 : validate item = none := hpre item (List.mem_cons_self _ _)
    have h2 : ∀ y ∈ rest, validate y = none := fun y hy => hpre y (List.mem_cons_of_mem _ hy)
    rw [List.cons_append, WatchResponse.validateLoop_cons_none validate idx item _ h1, ih (idx + 1) h2]
    simp [Nat.add_assoc, Nat.add_comm 1]

/-- A failing loop splits its input at the first failing item. -/
theorem WatchResponse.validateLoop_eq_some (validate : Option Endpoint → Option ε)
    (idx : Nat) (items : List (Option Endpoint)) (e : WatchResponseValidationError ε)
    (h : WatchResponse.validateLoop validate idx items = some e) :
    ∃ pre x post c, items = pre ++ x :: post ∧ (∀ item ∈ pre, validate item = none) ∧
      validate x = some c := by
  induction items generalizing idx with
  | nil => simp [WatchResponse.validateLoop] at h
  | cons item rest ih =>
    cases hv : validate item with
    | some c => exact ⟨[], item, rest, c, rfl, by simp, hv⟩
    | none =>
      rw [WatchResponse.validateLoop_cons_none validate idx item rest hv] at h
      obtain ⟨pre, x, post, c, hsplit, hpre, hx⟩ := ih (idx + 1) h
      refine ⟨item :: pre, x, post, c, by simp [hsplit], ?_, hx⟩
      intro y hy
      rcases List.mem_cons.mp hy with rfl | hy
      · exact hv
      · exact hpre y hy

end ValidateLoop

/-! ## Claims about the generated validation code -/

/-- C1: `WatchResponse.Validate`, over an arbitrary per-element validator,
returns nil exactly when every entry of `Endpoints` validates to nil; the nil
response and the empty list give nil. -/
theorem WatchResponse.ValidateWith_eq_none_iff {ε : Type}
    (validate : Option Endpoint → Option ε) :
    WatchResponse.ValidateWith validate none = none ∧
    WatchResponse.ValidateWith validate (some { Endpoints := [] }) = none ∧
    ∀ endpoints : List (Option Endpoint),
      WatchResponse.ValidateWith validate (some { Endpoints := endpoints }) = none ↔
        ∀ item ∈ endpoints, validate item = none := by
  refine ⟨rfl, rfl, fun endpoints => ?_⟩
  exact WatchResponse.validateLoop_eq_none_iff validate 0 endpoints

/-- C2: `Endpoint.Validate` returns nil for the nil Endpoint and for every
Endpoint value: any hostname (the empty one included), any port (values above
65535 included) and any weight. -/
theorem Endpoint.Validate_always_nil {ε : Type} :
    @Endpoint.Validate ε none = none ∧
    (∀ (hostname : String) (port weight : Nat),
      @Endpoint.Validate ε (some { Hostname := hostname, Port := port, Weight := weight }) = none) ∧
    @Endpoint.Validate ε (some { Hostname := "", Port := 65536, Weight := 0 }) = none ∧
    ∀ m : Option Endpoint, @Endpoint.Validate ε m = none := by
  refine ⟨rfl, fun _ _ _ => rfl, rfl, fun m => ?_⟩
  cases m <;> rfl

/-- C3: `WatchRequest.Validate` returns nil for the nil WatchRequest and for
every WatchRequest, whatever its target (the empty target included). -/
theorem WatchRequest.Validate_never_rejects {ε : Type} :
    @WatchRequest.Validate ε none = none ∧
    (∀ target : String, @WatchRequest.Validate ε (some { Target := target }) = none) ∧
    @WatchRequest.Validate ε (some { Target := "" }) = none ∧
    ∀ m : Option WatchRequest, @WatchRequest.Validate ε m = none := by
  refine ⟨rfl, fun _ => rfl, rfl, fun m => ?_⟩
  cases m <;> rfl

/-- C4: `Error()` of a `WatchResponseValidationError` with components (field,
reason, cause, key) is "invalid ", then "key for " when key is set, then
"WatchResponse.", the field, ": ", the reason, and, when a cause is present,
" | caused by: " followed by the cause's message. -/
theorem WatchResponseValidationError.Error_eq {ε : Type} [GoError ε]
    (field reason : String) (cause : Option ε) (key : Bool) :
    WatchResponseValidationError.Error
        { field := field, reason := reason, cause := cause, key := key } =
      "invalid " ++ (if key then "key for " else "") ++ "WatchResponse." ++ field ++ ": " ++
        reason ++
        (match cause with
         | some c => " | caused by: " ++ GoError.Error c
         | none => "") := by
  cases cause <;>
    simp [WatchResponseValidationError.Error, fmt.Sprintf_response, fmt.Sprintf_caused_by]

/-- C5: for each of the three validation error types and every value built from
components (field, reason, cause, key), the accessors `Field`, `Reason`,
`Cause` and `Key` return exactly the stored components. -/
theorem ValidationError_accessors {ε : Type} (field reason : String) (cause : Option ε)
    (key : Bool) :
    (WatchRequestValidationError.Field
        { field := field, reason := reason, cause := cause, key := key } = field ∧
      WatchRequestValidationError.Reason
        { field := field, reason := reason, cause := cause, key := key } = reason ∧
      WatchRequestValidationError.Cause
        { field := field, reason := reason, cause := cause, key := key } = cause ∧
      WatchRequestValidationError.Key
        { field := field, reason := reason, cause := cause, key := key } = key) ∧
    (WatchResponseValidationError.Field
        { field := field, reason := reason, cause := cause, key := key } = field ∧
      WatchResponseValidationError.Reason
        { field := field, reason := reason, cause := cause, key := key } = reason ∧
      WatchResponseValidationError.Cause
        { field := field, reason := reason, cause := cause, key := key } = cause ∧
      WatchResponseValidationError.Key
        { field := field, reason := reason, cause := cause, key := key } = key) ∧
    (EndpointValidationError.Field
        { field := field, reason := reason, cause := cause, key := key } = field ∧
      EndpointValidationError.Reason
        { field := field, reason := reason, cause := cause, key := key } = reason ∧
      EndpointValidationError.Cause
        { field := field, reason := reason, cause := cause, key := key } = cause ∧
      EndpointValidationError.Key
        { field := field, reason := reason, cause := cause, key := key } = key) :=
  ⟨⟨rfl, rfl, rfl, rfl⟩, ⟨rfl, rfl, rfl, rfl⟩, ⟨rfl, rfl, rfl, rfl⟩⟩

/-- C6: `ErrorName()` does not depend on the error's components: it is
"WatchRequestValidationError", "WatchResponseValidationError" and
"EndpointValidationError" for the three types, and the three names are
pairwise distinct. -/
theorem ValidationError_ErrorName {ε : Type} :
    (∀ e : WatchRequestValidationError ε, e.ErrorName = "WatchRequestValidationError") ∧
    (∀ e : WatchResponseValidationError ε, e.ErrorName = "WatchResponseValidationError") ∧
    (∀ e : EndpointValidationError ε, e.ErrorName = "EndpointValidationError") ∧
    (∀ (a : WatchRequestValidationError ε) (b : WatchResponseValidationError ε)
        (c : EndpointValidationError ε),
      a.ErrorName ≠ b.ErrorName ∧ a.ErrorName ≠ c.ErrorName ∧ b.ErrorName ≠ c.ErrorName) := by
  refine ⟨fun _ => rfl, fun _ => rfl, fun _ => rfl, fun a b c => ?_⟩
  simp only [WatchRequestValidationError.ErrorName, WatchResponseValidationError.ErrorName,
    EndpointValidationError.ErrorName]
  decide

/-- C10: when `WatchResponse.Validate` (over an arbitrary per-element validator)
fails, the error describes the first failing entry: there is an index `i` whose
entry fails with error `c` while every entry before it validates, the field is
"Endpoints[i]" with `i` in decimal, the reason is "embedded message failed
validation", the cause is `c`, the key flag is false, and every response that
agrees on the first `i + 1` entries gets the same error. -/
theorem WatchResponse.ValidateWith_first_failure {ε : Type}
    (validate : Option Endpoint → Option ε) (m : WatchResponse)
    (e : WatchResponseValidationError ε)
    (h : WatchResponse.ValidateWith validate (some m) = some e) :
    ∃ (i : Nat) (item : Option Endpoint) (c : ε),
      m.Endpoints[i]? = some item ∧ validate item = some c ∧
      (∀ (j : Nat) (x : Option Endpoint), j < i → m.Endpoints[j]? = some x → validate x = none) ∧
      e.field = "Endpoints[" ++ toString i ++ "]" ∧
      e.reason = "embedded message failed validation" ∧
      e.cause = some c ∧
      e.key = false ∧
      ∀ m2 : WatchResponse, m2.Endpoints.take (i + 1) = m.Endpoints.take (i + 1) →
        WatchResponse.ValidateWith validate (some m2) = some e := by
  obtain ⟨pre, x, post, c, hsplit, hpre, hx⟩ :=
    WatchResponse.validateLoop_eq_some validate 0 m.Endpoints e h
  have he := WatchResponse.validateLoop_append validate 0 pre post x c hpre hx
  have h0 : WatchResponse.validateLoop validate 0 m.Endpoints = some e := h
  rw [hsplit, he] at h0
  have hE : e = { field := "Endpoints[" ++ toString pre.length ++ "]"
                  reason := "embedded message failed validation"
                  cause := some c
                  key := false } := by
    simpa using (Option.some.inj h0).symm
  refine ⟨pre.length, x, c, ?_, hx, ?_, ?_, ?_, ?_, ?_, ?_⟩
  · rw [hsplit, List.getElem?_append_right (Nat.le_refl _)]
    simp
  · intro j y hj hy
    rw [hsplit, List.getElem?_append_left hj] at hy
    exact hpre y (List.getElem?_mem hy)
  · rw [hE]
  · rw [hE]
  · rw [hE]
  · rw [hE]
  · intro m2 h2
    have htake : m.Endpoints.take (pre.length + 1) = pre ++ [x] := by
      rw [hsplit]
      simp [List.take_append_eq_append_take]
    have hm2 : m2.Endpoints = pre ++ x :: m2.Endpoints.drop (pre.length + 1) := by
      conv_lhs => rw [← List.take_append_drop (pre.length + 1) m2.Endpoints, h2, htake]
      simp
    show WatchResponse.validateLoop validate 0 m2.Endpoints = some e
    rw [hm2, WatchResponse.validateLoop_append validate 0 pre _ x c hpre hx, hE, Nat.zero_add]

/-- Witness for C10: with a validator that rejects nil entries, the response
`[a, nil, b]` fails, and the error names index 1. -/
theorem WatchResponse.ValidateWith_first_failure_witness :
    WatchResponse.ValidateWith rejectNil (some { Endpoints := [some ⟨"a", 1, 1⟩, none, some ⟨"b", 2, 2⟩] })
        = some { field := "Endpoints[1]", reason := "embedded message failed validation",
                 cause := some "nil entry", key := false } ∧
    ∃ (i : Nat) (item : Option Endpoint) (c : String),
      ([some ⟨"a", 1, 1⟩, none, some ⟨"b", 2, 2⟩] : List (Option Endpoint))[i]? = some item ∧
      rejectNil item = some c ∧
      (∀ (j : Nat) (x : Option Endpoint), j < i →
        ([some ⟨"a", 1, 1⟩, none, some ⟨"b", 2, 2⟩] : List (Option Endpoint))[j]? = some x →
          rejectNil x = none) ∧
      "Endpoints[1]" = "Endpoints[" ++ toString i ++ "]" ∧
      "embedded message failed validation" = "embedded message failed validation" ∧
      some "nil entry" = some c ∧
      false = false ∧
      ∀ m2 : WatchResponse,
        m2.Endpoints.take (i + 1) =
            ([some ⟨"a", 1, 1⟩, none, some ⟨"b", 2, 2⟩] : List (Option Endpoint)).take (i + 1) →
          WatchResponse.ValidateWith rejectNil (some m2) =
            some { field := "Endpoints[1]", reason := "embedded message failed validation",
                   cause := some "nil entry", key := false } :=
  ⟨by decide,
   WatchResponse.ValidateWith_first_failure rejectNil
     { Endpoints := [some ⟨"a", 1, 1⟩, none, some ⟨"b", 2, 2⟩] }
     { field := "Endpoints[1]", reason := "embedded message failed validation",
       cause := some "nil entry", key := false }
     (by decide)⟩

/-- The generated `WatchResponse.Validate` checks its items with
`Endpoint.Validate`, which never fails, so it returns nil for every response. -/
theorem WatchResponse.Validate_generated_nil {ε : Type} (m : Option WatchResponse) :
    @WatchResponse.Validate ε m = none := by
  cases m with
  | none => rfl
  | some r =>
    show WatchResponse.validateLoop (@Endpoint.Validate ε) 0 r.Endpoints = none
    rw [WatchResponse.validateLoop_eq_none_iff]
    intro item _
    cases item <;> rfl

/-! ## The Diff Engine -/

namespace WatchEngine

/-- The Diff Engine stays silent exactly when the candidate equals the previous
member set. -/
theorem diff_eq_none_iff (previous : EndpointSet) (candidate : Finset Endpoint) (now : Nat) :
    diff previous candidate now = none ↔ candidate = previous.members := by
  unfold diff added removed
  constructor
  · intro h
    by_cases hc : candidate \ previous.members = ∅ ∧ previous.members \ candidate = ∅
    · exact Finset.Subset.antisymm (Finset.sdiff_eq_empty_iff_subset.mp hc.1)
        (Finset.sdiff_eq_empty_iff_subset.mp hc.2)
    · simp [hc] at h
      exact Finset.Subset.antisymm h.1 h.2
  · intro h
    subst h
    simp

/-- What the Diff Engine publishes when the candidate differs. -/
theorem diff_of_ne (previous : EndpointSet) (candidate : Finset Endpoint) (now : Nat)
    (h : candidate ≠ previous.members) :
    diff previous candidate now =
      some
        { target := previous.target
          members := candidate
          version := previous.version + 1
          observedAt := now } := by
  have hn : diff previous candidate now ≠ none := fun hd =>
    h ((diff_eq_none_iff previous candidate now).mp hd)
  unfold diff at hn ⊢
  split
  · rename_i hc
    simp [hc] at hn
  · rfl

/-- A published set carries the candidate members and the next version. -/
theorem diff_eq_some (previous : EndpointSet) (candidate : Finset Endpoint) (now : Nat)
    (s : EndpointSet) (h : diff previous candidate now = some s) :
    s.members = candidate ∧ s.version = previous.version + 1 ∧ candidate ≠ previous.members := by
  have hne : candidate ≠ previous.members := by
    intro hc
    rw [(diff_eq_none_iff previous candidate now).mpr hc] at h
    exact Option.noConfusion h
  rw [diff_of_ne previous candidate now hne] at h
  cases h
  exact ⟨rfl, rfl, hne⟩

/-- Polling an unchanged member set publishes nothing. -/
theorem publications_unchanged (previous : EndpointSet) (polls : List (Finset Endpoint × Nat))
    (h : ∀ p ∈ polls, p.1 = previous.members) : publications previous polls = [] := by
  induction polls with
  | nil => rfl
  | cons p rest ih =>
    have hp : diff previous p.1 p.2 = none :=
      (diff_eq_none_iff previous p.1 p.2).mpr (h p (List.mem_cons_self _ _))
    simp only [publications, hp]
    exact ih (fun q hq => h q (List.mem_cons_of_mem _ hq))

/-- Polling one member set over and over publishes at most once. -/
theorem publications_same_length (previous : EndpointSet) (candidate : Finset Endpoint)
    (polls : List (Finset Endpoint × Nat)) (h : ∀ p ∈ polls, p.1 = candidate) :
    (publications previous polls).length ≤ 1 := by
  induction polls with
  | nil => simp [publications]
  | cons p rest ih =>
    have hrest : ∀ q ∈ rest, q.1 = candidate := fun q hq => h q (List.mem_cons_of_mem _ hq)
    cases hd : diff previous p.1 p.2 with
    | none =>
      simp only [publications, hd]
      exact ih hrest
    | some s =>
      have hs := (diff_eq_some previous p.1 p.2 s hd).1
      have hp : p.1 = candidate := h p (List.mem_cons_self _ _)
      have : publications s rest = [] :=
        publications_unchanged s rest (fun q hq => by rw [hrest q hq, hs, hp])
      simp [publications, hd, this]

/-- Re-resolving the current member set leaves the registry as it is. -/
theorem Registry.resolved_unchanged (cfg : Config) (r : Registry) (now : Nat) :
    Registry.resolved cfg (.ok r.registration.current.members) now r = r := by
  unfold Registry.resolved
  split
  · rfl
  · simp [(diff_eq_none_iff r.registration.current r.registration.current.members now).mpr rfl]

/-- C7: the Diff Engine publishes a new Endpoint Set, with the version
incremented, exactly when the candidate member set differs from
`previous.members`, and returns none otherwise; so polling one member set any
number of times publishes at most once, publishes nothing when the set is the
current one or was just published, and leaves the registry untouched. -/
theorem diff_publishes_only_on_change (previous : EndpointSet) (candidate : Finset Endpoint)
    (now : Nat) :
    (candidate ≠ previous.members →
      diff previous candidate now =
        some
          { target := previous.target
            members := candidate
            version := previous.version + 1
            observedAt := now }) ∧
    (candidate = previous.members → diff previous candidate now = none) ∧
    (∀ s, diff previous candidate now = some s → candidate ≠ previous.members) ∧
    (∀ polls : List (Finset Endpoint × Nat), (∀ p ∈ polls, p.1 = candidate) →
      (publications previous polls).length ≤ 1 ∧
      (candidate = previous.members → publications previous polls = []) ∧
      ∀ s, diff previous candidate now = some s → publications s polls = []) ∧
    (∀ (cfg : Config) (r : Registry) (n : Nat), r.registration.current = previous →
      candidate = previous.members →
      Registry.run cfg r (List.replicate n (Event.resolved (.ok candidate) now)) = r) := by
  refine ⟨diff_of_ne previous candidate now, (diff_eq_none_iff previous candidate now).mpr,
    fun s hs => (diff_eq_some previous candidate now s hs).2.2, ?_, ?_⟩
  · intro polls h
    refine ⟨publications_same_length previous candidate polls h, ?_, ?_⟩
    · intro hc
      exact publications_unchanged previous polls (fun p hp => by rw [h p hp, hc])
    · intro s hs
      have hm := (diff_eq_some previous candidate now s hs).1
      exact publications_unchanged s polls (fun p hp => by rw [h p hp, hm])
  · intro cfg r n hr hc
    subst hr
    subst hc
    induction n with
    | zero => rfl
    | succ n ih =>
      rw [List.replicate_succ]
      simp only [Registry.run, List.foldl_cons, Registry.step]
      rw [Registry.resolved_unchanged]
      exact ih

/-- Witness for C7: a weight change publishes version 1 over version 0, and
three further polls of the same members publish nothing more. -/
theorem diff_publishes_only_on_change_witness :
    diff { target := "t", members := {⟨"a", 80, 1⟩}, version := 0, observedAt := 0 }
        {⟨"a", 80, 2⟩} 7 =
      some { target := "t", members := {⟨"a", 80, 2⟩}, version := 1, observedAt := 7 } ∧
    (publications { target := "t", members := {⟨"a", 80, 1⟩}, version := 0, observedAt := 0 }
        [({⟨"a", 80, 2⟩}, 7), ({⟨"a", 80, 2⟩}, 8), ({⟨"a", 80, 2⟩}, 9)]).length ≤ 1 :=
  ⟨(diff_publishes_only_on_change
      { target := "t", members := {⟨"a", 80, 1⟩}, version := 0, observedAt := 0 }
      {⟨"a", 80, 2⟩} 7).1 (by decide),
   ((diff_publishes_only_on_change
      { target := "t", members := {⟨"a", 80, 1⟩}, version := 0, observedAt := 0 }
      {⟨"a", 80, 2⟩} 7).2.2.2.1
      [({⟨"a", 80, 2⟩}, 7), ({⟨"a", 80, 2⟩}, 8), ({⟨"a", 80, 2⟩}, 9)] (by decide)).1⟩

/-! ## Detaching -/

/-- Once detached, a session id is no longer among the subscribers. -/
theorem Registry.detach_not_registered (id : Nat) (r : Registry) :
    (Registry.detach id r).registration.subscribers.any (fun sess => sess.id = id) = false := by
  unfold Registry.detach
  split
  · simp [Registry.settle]
    split <;> simp
  · rename_i h
    simpa using h

/-- Detaching a session that is not registered changes nothing. -/
theorem Registry.detach_of_not_registered (id : Nat) (r : Registry)
    (h : r.registration.subscribers.any (fun sess => sess.id = id) = false) :
    Registry.detach id r = r := by
  unfold Registry.detach
  simp [h]

/-- C9: `detach()` is idempotent: a second call, any number of further calls,
and a call for a session that is no longer registered (its stream has ended)
leave the registry, subscriber set and `refCount` included, as the first call
left it; `detach` is a total function, so no call fails. -/
theorem Registry.detach_idempotent (id : Nat) (r : Registry) :
    Registry.detach id (Registry.detach id r) = Registry.detach id r ∧
    (∀ n : Nat, Nat.iterate (Registry.detach id) (n + 1) r = Registry.detach id r) ∧
    (Registry.detach id (Registry.detach id r)).registration.subscribers =
      (Registry.detach id r).registration.subscribers ∧
    (Registry.detach id (Registry.detach id r)).registration.refCount =
      (Registry.detach id r).registration.refCount ∧
    ((∀ sess ∈ r.registration.subscribers, sess.id ≠ id) → Registry.detach id r = r) ∧
    (∀ (e : SessionError), Registry.detach id (Registry.terminateAll e r) = Registry.terminateAll e r) := by
  have h2 : Registry.detach id (Registry.detach id r) = Registry.detach id r :=
    Registry.detach_of_not_registered id _ (Registry.detach_not_registered id r)
  refine ⟨h2, ?_, by rw [h2], by rw [h2], ?_, ?_⟩
  · intro n
    induction n with
    | zero => rfl
    | succ n ih =>
      rw [Function.iterate_succ_apply', ih, h2]
  · intro h
    apply Registry.detach_of_not_registered
    simpa using h
  · intro e
    apply Registry.detach_of_not_registered
    simp [Registry.terminateAll]

/-- Witness for C9: a session attached, served and detached; detaching it again
changes nothing, and the last reference is gone. -/
theorem Registry.detach_idempotent_witness :
    Registry.detach 0 (Registry.detach 0 (Registry.run ⟨2, .coalesce⟩ (Registry.init "t")
        [.attach 0, .receive 0])) =
      Registry.detach 0 (Registry.run ⟨2, .coalesce⟩ (Registry.init "t") [.attach 0, .receive 0]) ∧
    (Registry.detach 0 (Registry.run ⟨2, .coalesce⟩ (Registry.init "t")
        [.attach 0, .receive 0])).registration.refCount = 0 :=
  ⟨(Registry.detach_idempotent 0
      (Registry.run ⟨2, .coalesce⟩ (Registry.init "t") [.attach 0, .receive 0])).1,
   by decide⟩

end WatchEngine

/-! ## Ordered delivery -/

namespace WatchEngine

theorem versionsOf_append (a b : List (Nat × StreamItem)) (id : Nat) :
    versionsOf (a ++ b) id = versionsOf a id ++ versionsOf b id := by
  simp [versionsOf, List.filterMap_append]

/-- Terminal errors add no version to any stream. -/
theorem versionsOf_failed (subs : List SubscriberSession) (e : SessionError) (id : Nat) :
    versionsOf (subs.map (fun sess => (sess.id, StreamItem.failed e))) id = [] := by
  induction subs with
  | nil => rfl
  | cons sess rest ih =>
    simp only [versionsOf, List.map_cons, List.filterMap_cons] at ih ⊢
    split
    · rename_i h
      exact ih
    · rename_i b h
      split at h <;> simp at h

/-- A stream that carries only ids below `id` has delivered nothing to `id`. -/
theorem versionsOf_of_lt (streams : List (Nat × StreamItem)) (id : Nat)
    (h : ∀ item ∈ streams, item.1 < id) : versionsOf streams id = [] := by
  induction streams with
  | nil => rfl
  | cons item rest ih =>
    have hi : item.1 ≠ id := Nat.ne_of_lt (h item (List.mem_cons_self _ _))
    simp only [versionsOf, List.filterMap_cons, hi, if_false]
    exact ih (fun x hx => h x (List.mem_cons_of_mem _ hx))

/-- Appending a larger element keeps a strictly increasing list so. -/
theorem pairwise_snoc (l : List Nat) (v : Nat) (h : l.Pairwise (· < ·))
    (hv : ∀ x ∈ l, x < v) : (l ++ [v]).Pairwise (· < ·) := by
  rw [List.pairwise_append]
  refine ⟨h, List.pairwise_singleton _ _, ?_⟩
  intro a ha b hb
  rw [List.mem_singleton] at hb
  subst hb
  exact hv a ha

theorem Registry.inv_init (target : String) : (Registry.init target).Inv := by
  constructor
  · intro sess h
    simp [Registry.init] at h
  · intro item h
    simp [Registry.init] at h
  · intro id
    simp [Registry.init, Registry.deliveredVersions, versionsOf]
  · intro sess h
    simp [Registry.init] at h
  · intro sess h
    simp [Registry.init] at h

/-- Changing the phase does not touch the invariant. -/
theorem Registry.inv_settle (r : Registry) (h : r.Inv) : (Registry.settle r).Inv := by
  unfold Registry.settle
  split
  · exact ⟨h.fresh, h.logged, h.sorted, h.ordered, h.bounded⟩
  · exact h

theorem Registry.inv_terminateAll (e : SessionError) (r : Registry) (h : r.Inv) :
    (Registry.terminateAll e r).Inv := by
  constructor
  · intro sess hs
    simp [Registry.terminateAll] at hs
  · intro item hi
    simp only [Registry.terminateAll, List.mem_append, List.mem_map] at hi
    rcases hi with hi | ⟨sess, hs, rfl⟩
    · exact h.logged item hi
    · exact h.fresh sess hs
  · intro id
    simp only [Registry.terminateAll, Registry.deliveredVersions, versionsOf_append,
      versionsOf_failed, List.append_nil]
    exact h.sorted id
  · intro sess hs
    simp [Registry.terminateAll] at hs
  · intro sess hs
    simp [Registry.terminateAll] at hs

theorem Registry.inv_attach (now : Nat) (r : Registry) (h : r.Inv) :
    (Registry.attach now r).Inv := by
  have hnone : versionsOf r.streams r.nextSessionId = [] :=
    versionsOf_of_lt r.streams r.nextSessionId h.logged
  unfold Registry.attach
  simp only
  split
  · -- the target has failed for good: the stream ends at once
    constructor
    · intro sess hs
      exact Nat.lt_succ_of_lt (h.fresh sess hs)
    · intro item hi
      simp only [List.mem_append, List.mem_singleton] at hi
      rcases hi with hi | rfl
      · exact Nat.lt_succ_of_lt (h.logged item hi)
      · exact Nat.lt_succ_self _
    · intro id
      have : versionsOf [(r.nextSessionId, StreamItem.failed SessionError.Invalid)] id = [] := by
        simp [versionsOf]
      simp only [Registry.deliveredVersions, versionsOf_append, this, List.append_nil]
      exact h.sorted id
    · intro sess hs
      have : versionsOf [(r.nextSessionId, StreamItem.failed SessionError.Invalid)] sess.id = [] := by
        simp [versionsOf]
      simp only [Registry.timeline, Registry.deliveredVersions, versionsOf_append, this,
        List.append_nil]
      exact h.ordered sess hs
    · intro sess hs
      have : versionsOf [(r.nextSessionId, StreamItem.failed SessionError.Invalid)] sess.id = [] := by
        simp [versionsOf]
      simp only [Registry.timeline, Registry.deliveredVersions, versionsOf_append, this,
        List.append_nil]
      exact h.bounded sess hs
  · split
    all_goals
      constructor
      · intro sess hs
        simp only [List.mem_append, List.mem_singleton] at hs
        first
          | (rcases hs with hs | rfl
             · exact Nat.lt_succ_of_lt (h.fresh sess hs)
             · exact Nat.lt_succ_self _)
          | (subst hs; exact Nat.lt_succ_self _)
      · intro item hi
        exact Nat.lt_succ_of_lt (h.logged item hi)
      · exact h.sorted
      · intro sess hs
        simp only [List.mem_append, List.mem_singleton] at hs
        first
          | (rcases hs with hs | rfl
             · exact h.ordered sess hs
             · simp [Registry.timeline, Registry.deliveredVersions, SubscriberSession.fresh, hnone])
          | (subst hs
             simp [Registry.timeline, Registry.deliveredVersions, SubscriberSession.fresh, hnone])
      · intro sess hs
        simp only [List.mem_append, List.mem_singleton] at hs
        first
          | (rcases hs with hs | rfl
             · exact h.bounded sess hs
             · simp [Registry.timeline, Registry.deliveredVersions, SubscriberSession.fresh, hnone])
          | (subst hs
             simp [Registry.timeline, Registry.deliveredVersions, SubscriberSession.fresh, hnone])

theorem Registry.inv_detach (id : Nat) (r : Registry) (h : r.Inv) :
    (Registry.detach id r).Inv := by
  unfold Registry.detach
  split
  · apply Registry.inv_settle
    constructor
    · intro sess hs
      exact h.fresh sess (List.mem_filter.mp hs).1
    · exact h.logged
    · exact h.sorted
    · intro sess hs
      exact h.ordered sess (List.mem_filter.mp hs).1
    · intro sess hs
      exact h.bounded sess (List.mem_filter.mp hs).1
  · exact h

/-- What `offer` does to a session it keeps: same id, and a queue made of a
suffix of the old queue followed by the new set. -/
theorem SubscriberSession.offer_eq_some (cfg : Config) (s : EndpointSet)
    (sess kept : SubscriberSession) (h : SubscriberSession.offer cfg s sess = some kept) :
    kept.id = sess.id ∧
      ∃ k : Nat, kept.outputChannel = sess.outputChannel.drop k ++ [s] := by
  unfold SubscriberSession.offer at h
  split at h
  · cases h
    exact ⟨rfl, 0, rfl⟩
  · split at h
    · cases h
      exact ⟨rfl, 1, rfl⟩
    · exact Option.noConfusion h

/-- Publishing a set newer than the current one keeps the invariant. -/
theorem Registry.inv_publish (cfg : Config) (s : EndpointSet) (r : Registry) (h : r.Inv)
    (hs : r.registration.current.version < s.version) : (Registry.publish cfg s r).Inv := by
  unfold Registry.publish
  apply Registry.inv_settle
  constructor
  · intro kept hk
    obtain ⟨sess, hmem, hoffer⟩ := List.mem_filterMap.mp hk
    rw [(SubscriberSession.offer_eq_some cfg s sess kept hoffer).1]
    exact h.fresh sess hmem
  · intro item hi
    simp only [List.mem_append, List.mem_map] at hi
    rcases hi with hi | ⟨sess, hmem, rfl⟩
    · exact h.logged item hi
    · exact h.fresh sess (List.mem_filter.mp hmem).1
  · intro id
    simp only [Registry.deliveredVersions, versionsOf_append, versionsOf_failed, List.append_nil]
    exact h.sorted id
  · intro kept hk
    obtain ⟨sess, hmem, hoffer⟩ := List.mem_filterMap.mp hk
    obtain ⟨hid, k, hq⟩ := SubscriberSession.offer_eq_some cfg s sess kept hoffer
    have hord := h.ordered sess hmem
    have hbnd := h.bounded sess hmem
    simp only [Registry.timeline, Registry.deliveredVersions, versionsOf_append,
      versionsOf_failed, List.append_nil, hid, hq, List.map_append, List.map_cons, List.map_nil,
      ← List.append_assoc] at hord hbnd ⊢
    have hsub : (versionsOf r.streams sess.id ++
        List.map (fun s => s.version) (List.drop k sess.outputChannel)).Sublist
        (versionsOf r.streams sess.id ++ List.map (fun s => s.version) sess.outputChannel) :=
      List.Sublist.append_left ((List.drop_sublist k sess.outputChannel).map _) _
    apply pairwise_snoc _ _ (hord.sublist hsub)
    intro x hx
    exact Nat.lt_of_le_of_lt (hbnd x (hsub.subset hx)) hs
  · intro kept hk
    obtain ⟨sess, hmem, hoffer⟩ := List.mem_filterMap.mp hk
    obtain ⟨hid, k, hq⟩ := SubscriberSession.offer_eq_some cfg s sess kept hoffer
    have hbnd := h.bounded sess hmem
    simp only [Registry.timeline, Registry.deliveredVersions, versionsOf_append,
      versionsOf_failed, List.append_nil, hid, hq, List.map_append, List.map_cons, List.map_nil,
      ← List.append_assoc] at hbnd ⊢
    have hsub : (versionsOf r.streams sess.id ++
        List.map (fun s => s.version) (List.drop k sess.outputChannel)).Sublist
        (versionsOf r.streams sess.id ++ List.map (fun s => s.version) sess.outputChannel) :=
      List.Sublist.append_left ((List.drop_sublist k sess.outputChannel).map _) _
    intro v hv
    rcases List.mem_append.mp hv with hv | hv
    · exact Nat.le_of_lt (Nat.lt_of_le_of_lt (hbnd v (hsub.subset hv)) hs)
    · rw [List.mem_singleton] at hv
      exact Nat.le_of_eq hv

theorem Registry.inv_resolved (cfg : Config) (outcome : Except ResolveError (Finset Endpoint))
    (now : Nat) (r : Registry) (h : r.Inv) : (Registry.resolved cfg outcome now r).Inv := by
  unfold Registry.resolved
  split
  · exact h
  · split
    · rename_i members
      cases hd : diff r.registration.current members now with
      | none => exact h
      | some s =>
        have hv := (diff_eq_some r.registration.current members now s hd).2.1
        exact Registry.inv_publish cfg s r h (by omega)
    · cases hd : diff r.registration.current ∅ now with
      | none => exact h
      | some s =>
        have hv := (diff_eq_some r.registration.current ∅ now s hd).2.1
        exact Registry.inv_publish cfg s r h (by omega)
    · exact h
    · apply Registry.inv_terminateAll
      exact ⟨h.fresh, h.logged, h.sorted, h.ordered, h.bounded⟩

/-- The versions delivered to `id2` after session `id` received the set `s`. -/
theorem versionsOf_snapshot (streams : List (Nat × StreamItem)) (id id2 : Nat) (s : EndpointSet) :
    versionsOf (streams ++ [(id, StreamItem.snapshot s)]) id2 =
      if id = id2 then versionsOf streams id2 ++ [s.version] else versionsOf streams id2 := by
  rw [versionsOf_append]
  by_cases hid : id = id2
  · simp [versionsOf, hid]
  · simp [versionsOf, hid]

theorem Registry.inv_receive (id : Nat) (r : Registry) (h : r.Inv) :
    (Registry.receive id r).Inv := by
  unfold Registry.receive
  split
  · exact h
  · rename_i sess hfind
    have hmem : sess ∈ r.registration.subscribers := List.mem_of_find?_eq_some hfind
    have hid : sess.id = id := by
      simpa using List.find?_some hfind
    split
    · exact h
    · rename_i s rest hq
      have hord := h.ordered sess hmem
      have hbnd := h.bounded sess hmem
      simp only [Registry.timeline, Registry.deliveredVersions, hq, hid, List.map_cons] at hord hbnd
      have hord2 : ((versionsOf r.streams id ++ [s.version]) ++
          List.map (fun s => s.version) rest).Pairwise (· < ·) := by
        simpa using hord
      have hbnd2 : ∀ v ∈ (versionsOf r.streams id ++ [s.version]) ++
          List.map (fun s => s.version) rest, v ≤ r.registration.current.version := by
        simpa using hbnd
      constructor
      · intro x hx
        obtain ⟨y, hy, rfl⟩ := List.mem_map.mp hx
        split
        · exact h.fresh y hy
        · exact h.fresh y hy
      · intro item hi
        simp only [List.mem_append, List.mem_singleton] at hi
        rcases hi with hi | rfl
        · exact h.logged item hi
        · rw [← hid]
          exact h.fresh sess hmem
      · intro id2
        simp only [Registry.deliveredVersions, versionsOf_snapshot]
        split
        · rename_i h2
          subst h2
          exact (List.pairwise_append.mp hord2).1
        · exact h.sorted id2
      · intro x hx
        obtain ⟨y, hy, rfl⟩ := List.mem_map.mp hx
        by_cases hyid : y.id = id
        · simp only [Registry.timeline, Registry.deliveredVersions, versionsOf_snapshot, hyid,
            if_true]
          exact hord2
        · have hne : ¬ id = y.id := fun hc => hyid hc.symm
          simp only [Registry.timeline, Registry.deliveredVersions, versionsOf_snapshot, hyid,
            hne, if_false]
          exact h.ordered y hy
      · intro x hx
        obtain ⟨y, hy, rfl⟩ := List.mem_map.mp hx
        by_cases hyid : y.id = id
        · simp only [Registry.timeline, Registry.deliveredVersions, versionsOf_snapshot, hyid,
            if_true]
          exact hbnd2
        · have hne : ¬ id = y.id := fun hc => hyid hc.symm
          simp only [Registry.timeline, Registry.deliveredVersions, versionsOf_snapshot, hyid,
            hne, if_false]
          exact h.bounded y hy

theorem Registry.inv_step (cfg : Config) (r : Registry) (ev : Event) (h : r.Inv) :
    (Registry.step cfg r ev).Inv := by
  cases ev with
  | attach now => exact Registry.inv_attach now r h
  | detach id => exact Registry.inv_detach id r h
  | resolved outcome now => exact Registry.inv_resolved cfg outcome now r h
  | backoffExhausted =>
    simp only [Registry.step]
    split
    · exact Registry.inv_terminateAll _ r h
    · exact h
  | receive id => exact Registry.inv_receive id r h
  | graceExpired =>
    simp only [Registry.step]
    split
    · constructor
      · intro sess hs
        simp [Registry.init] at hs
      · exact h.logged
      · exact h.sorted
      · intro sess hs
        simp [Registry.init] at hs
      · intro sess hs
        simp [Registry.init] at hs
    · exact h

theorem Registry.inv_run (cfg : Config) (events : List Event) (r : Registry) (h : r.Inv) :
    (Registry.run cfg r events).Inv := by
  induction events generalizing r with
  | nil => exact h
  | cons ev rest ih => exact ih (Registry.step cfg r ev) (Registry.inv_step cfg r ev h)

/-- C8: for every sequence of events on a target (resolver outputs interleaved
with attaches, detaches, receives and timers), under either backpressure policy
and any queue depth, the versions delivered to any one Subscriber Session are
strictly increasing: never out of order, never the same version twice. -/
theorem Registry.delivered_versions_strictly_increasing (cfg : Config) (target : String)
    (events : List Event) (id : Nat) :
    ((Registry.run cfg (Registry.init target) events).deliveredVersions id).Pairwise (· < ·) :=
  (Registry.inv_run cfg events (Registry.init target) (Registry.inv_init target)).sorted id

/-- Witness for C8: in the scenario of section 8 the subscriber sees versions
0, 1, 2, 3: the unchanged poll delivers nothing, and the order is strict. -/
theorem Registry.delivered_versions_strictly_increasing_witness :
    (Registry.run ⟨2, .coalesce⟩ (Registry.init "t") scenario).deliveredVersions 0 = [0, 1, 2, 3] ∧
    ((Registry.run ⟨2, .coalesce⟩ (Registry.init "t") scenario).deliveredVersions 0).Pairwise
      (· < ·) :=
  ⟨by decide, Registry.delivered_versions_strictly_increasing ⟨2, .coalesce⟩ "t" scenario 0⟩

end WatchEngine

/-! ## The message of a failed `WatchResponse.Validate` -/

/-- A list with an item at index `i` splits around that item. -/
theorem list_split_at_index {α : Type} (items : List α) (i : Nat) (item : α)
    (h : items[i]? = some item) :
    items = items.take i ++ item :: items.drop (i + 1) ∧ (items.take i).length = i := by
  have hlt : i < items.length := by
    by_contra hc
    rw [List.getElem?_eq_none (Nat.le_of_not_lt hc)] at h
    exact Option.noConfusion h
  have hget : items[i] = item := by
    rw [List.getElem?_eq_getElem hlt] at h
    exact Option.some.inj h
  refine ⟨?_, by simp [Nat.le_of_lt hlt]⟩
  rw [← hget, ← List.drop_eq_getElem_cons hlt, List.take_append_drop]

/-- The text of the error built for a failing item at index `i`. -/
theorem WatchResponseValidationError.Error_embedded {ε : Type} [GoError ε] (i : Nat) (c : ε) :
    WatchResponseValidationError.Error
        { field := "Endpoints[" ++ toString i ++ "]"
          reason := "embedded message failed validation"
          cause := some c
          key := false } =
      "invalid WatchResponse.Endpoints[" ++ toString i ++
        "]: embedded message failed validation | caused by: " ++ GoError.Error c := by
  simp only [WatchResponseValidationError.Error, fmt.Sprintf_response, fmt.Sprintf_caused_by]
  apply String.ext
  simp

/-- C11: for every endpoint list whose first failing entry is at index `i` with
element error `c`, `WatchResponse.Validate` (over an arbitrary per-element
validator) returns an error whose `Error()` string is exactly
"invalid WatchResponse.Endpoints[i]: embedded message failed validation | caused by: "
followed by the message of `c`; no "key for " segment appears. -/
theorem WatchResponse.ValidateWith_Error_string {ε : Type} [GoError ε]
    (validate : Option Endpoint → Option ε) (m : WatchResponse) (i : Nat)
    (item : Option Endpoint) (c : ε)
    (hitem : m.Endpoints[i]? = some item) (hfail : validate item = some c)
    (hfirst : ∀ (j : Nat) (x : Option Endpoint), j < i → m.Endpoints[j]? = some x →
      validate x = none) :
    ∃ e : WatchResponseValidationError ε,
      WatchResponse.ValidateWith validate (some m) = some e ∧
      e.Error =
        "invalid WatchResponse.Endpoints[" ++ toString i ++
          "]: embedded message failed validation | caused by: " ++ GoError.Error c := by
  obtain ⟨hsplit, hlen⟩ := list_split_at_index m.Endpoints i item hitem
  have hpre : ∀ y ∈ m.Endpoints.take i, validate y = none := by
    intro y hy
    obtain ⟨j, hj⟩ := List.mem_iff_getElem?.mp hy
    have hji : j < i := by
      by_contra hc
      rw [List.getElem?_eq_none (by rw [hlen]; exact Nat.le_of_not_lt hc)] at hj
      exact Option.noConfusion hj
    rw [List.getElem?_take_of_lt hji] at hj
    exact hfirst j y hji hj
  have hloop := WatchResponse.validateLoop_append validate 0 (m.Endpoints.take i)
    (m.Endpoints.drop (i + 1)) item c hpre hfail
  rw [← hsplit, hlen, Nat.zero_add] at hloop
  exact ⟨_, hloop, WatchResponseValidationError.Error_embedded i c⟩

/-- Witness for C11: with a validator that rejects nil entries, the response
`[a, nil, b]` fails at index 1 and the message names that index and the cause. -/
theorem WatchResponse.ValidateWith_Error_string_witness :
    (∃ e : WatchResponseValidationError String,
      WatchResponse.ValidateWith rejectNil
          (some { Endpoints := [some ⟨"a", 1, 1⟩, none, some ⟨"b", 2, 2⟩] }) = some e ∧
      e.Error =
        "invalid WatchResponse.Endpoints[" ++ toString 1 ++
          "]: embedded message failed validation | caused by: " ++ GoError.Error "nil entry") ∧
    "invalid WatchResponse.Endpoints[" ++ toString 1 ++
        "]: embedded message failed validation | caused by: " ++ GoError.Error "nil entry" =
      "invalid WatchResponse.Endpoints[1]: embedded message failed validation | caused by: nil entry" :=
  ⟨WatchResponse.ValidateWith_Error_string rejectNil
    { Endpoints := [some ⟨"a", 1, 1⟩, none, some ⟨"b", 2, 2⟩] } 1 none "nil entry"
    (by decide) (by decide)
    (by
      intro j x hj hx
      have h0 : j = 0 := by omega
      subst h0
      have hx2 : x = some ⟨"a", 1, 1⟩ := by simpa using hx.symm
      subst hx2
      rfl),
   by decide⟩
